import Mathlib

/-!
Verification of the lexifree virtualized word-browser widget.

The definitions below are a shallow embedding of the "windowed" variant of
the browser (the first script in `src/unnamed/part_001`), which the spec
designates as the authoritative design.  DOM state is modelled explicitly:
a page container is a record holding its `pageIndex` data attribute, its
fixed CSS height and its children (three word columns, each a list of the
word strings rendered in it).  Pixel quantities are rationals; integer
quantities from JavaScript `Math.floor`/`Math.ceil` arithmetic are
integers or naturals with explicit floor/ceiling operations.
-/

namespace Lexifree

/-- Static configuration of one browser session: the loaded word list, the
layout metrics derived at initialization (`rowsPerColumn`,
`wordsPerPage = rowsPerColumn * 3`) and the measured widget geometry. -/
structure Config where
  wordList : List String
  rowsPerColumn : Nat
  wordsPerPage : Nat
  sliderWidth : ℚ
  handleWidth : ℚ
  displayHeight : ℚ
  deriving Repr, DecidableEq

/-- One page container in the display area: the `data-page-index`
attribute, the CSS `height` style in pixels, and the rendered children
(each child is one word column, itself the list of rendered word strings). -/
structure Page where
  pageIndex : Nat
  height : Nat
  children : List (List String)
  deriving Repr, DecidableEq

/-- The page store: the children of `displayArea` together with the
module-level `currentVisiblePageIndex` variable. -/
structure Store where
  pages : List Page
  cur : ℤ
  deriving Repr, DecidableEq

/-- `Math.ceil(wordList.length / wordsPerPage)` from the source, for a
positive `wordsPerPage` (skip the degenerate divisor, which is the subject
of the `calculateRows` analysis below). -/
def totalPagesOf (cfg : Config) : Nat :=
  (cfg.wordList.length + cfg.wordsPerPage - 1) / cfg.wordsPerPage

/-- `calculateRows`: `Math.floor((displayArea.offsetHeight - 20) / wordItemHeight)`.
JavaScript `Math.floor` of a real quotient is flooring division, so for a
positive item height it is `Int.fdiv`.  The source applies no lower bound
to the result. -/
def calculateRows (displayHeight wordItemHeight : ℤ) : ℤ :=
  Int.fdiv (displayHeight - 20) wordItemHeight

/-- `createEmptyPage`: a placeholder with the given page index, a fixed
350px height and no children. -/
def createEmptyPage (pageIndex : Nat) : Page :=
  { pageIndex := pageIndex, height := 350, children := [] }

/-- One word column built by the inner loop of `populatePage`: for each
row `i < rowsPerColumn` the word at `startIndex + colIndex * rowsPerColumn + i`
is appended when that index is in bounds, and skipped otherwise. -/
def buildColumn (cfg : Config) (startIndex colIndex : Nat) : List String :=
  (List.range cfg.rowsPerColumn).filterMap fun i =>
    let wordIndex := startIndex + colIndex * cfg.rowsPerColumn + i
    if wordIndex < cfg.wordList.length then
      some (cfg.wordList.getD wordIndex "")
    else
      none

/-- `populatePage`: a no-op when the container already has children,
otherwise three columns are appended, filled column-major from
`pageIndex * wordsPerPage`. -/
def populatePage (cfg : Config) (page : Page) (pageIndex : Nat) : Page :=
  if page.children.length > 0 then page
  else
    { page with
        children := (List.range 3).map
          (buildColumn cfg (pageIndex * cfg.wordsPerPage)) }

/-- `clearPage`: `replaceChildren()` removes every child. -/
def clearPage (page : Page) : Page :=
  { page with children := [] }

/-- One iteration of the loop in `updateVisiblePages` at index `i`:
invalid indices are skipped, a missing child is skipped, a page within
distance 1 of the target that is empty is populated, and a page farther
than distance 1 that has children is cleared. -/
def visiblePageStep (cfg : Config) (newIndex : ℤ) (pages : List Page) (i : ℤ) :
    List Page :=
  if i < 0 ∨ (totalPagesOf cfg : ℤ) ≤ i then pages
  else
    match pages.get? i.toNat with
    | none => pages
    | some page =>
      let shouldBePopulated := (i - newIndex).natAbs ≤ 1
      if shouldBePopulated ∧ page.children.length = 0 then
        pages.set i.toNat (populatePage cfg page i.toNat)
      else if ¬shouldBePopulated ∧ page.children.length > 0 then
        pages.set i.toNat (clearPage page)
      else
        pages

/-- `updateVisiblePages(newVisiblePageIndex, force)`: skips when the index
is unchanged and `force` is not set; otherwise examines only the five
pages `newVisiblePageIndex - 2 .. newVisiblePageIndex + 2` and records the
new visible index. -/
def updateVisiblePages (cfg : Config) (s : Store) (newIndex : ℤ) (force : Bool) :
    Store :=
  if newIndex = s.cur ∧ force = false then s
  else
    { pages :=
        [newIndex - 2, newIndex - 1, newIndex, newIndex + 1, newIndex + 2].foldl
          (visiblePageStep cfg newIndex) s.pages,
      cur := newIndex }

/-- `loadAllPages`: clears the display area, creates one empty placeholder
per page, resets the visible index to 0 and forces a window update. -/
def loadAllPages (cfg : Config) : Store :=
  let pages := (List.range (totalPagesOf cfg)).map createEmptyPage
  updateVisiblePages cfg { pages := pages, cur := 0 } 0 true

/-- Number of populated (non-placeholder) pages in a store. -/
def populatedCount (s : Store) : Nat :=
  (s.pages.filter fun p => decide (0 < p.children.length)).length

/-- A concrete session used to exercise the virtualization window: 36
words, one row per column, three words per page, hence 12 pages. -/
def cfg36 : Config :=
  { wordList := List.replicate 36 "w"
    rowsPerColumn := 1
    wordsPerPage := 3
    sliderWidth := 12
    handleWidth := 2
    displayHeight := 100 }

/-! ### Letter index builder (`createLetterDividers`) -/

/-- The alphabet string of the source. -/
def alphabetU : List Char := "ABCDEFGHIJKLMNOPQRSTUVWXYZ".data

/-- `word.charAt(0).toUpperCase()`: the uppercased first character of a
word, or nothing for the empty string. -/
def firstCharUpper (w : String) : Option Char :=
  w.data.head?.map Char.toUpper

/-- The single linear scan of `createLetterDividers`, viewed per letter:
the position of the first word whose uppercased first character is `c`. -/
def firstOcc : List String → Char → Option Nat
  | [], _ => none
  | w :: ws, c =>
    if firstCharUpper w = some c then some 0
    else (firstOcc ws c).map (· + 1)

/-- The entry of the `letterIndices` map for letter `c` after the scan:
the first occurrence, or the sentinel -1 when no word starts with `c`. -/
def letterIndexOf (wl : List String) (c : Char) : ℤ :=
  match firstOcc wl c with
  | some i => (i : ℤ)
  | none => -1

/-- `alphabet[i]`: the `i`-th uppercase letter. -/
def alphabetChar (i : Nat) : Char := alphabetU.getD i 'A'

/-- The `dividerPositions` array of the windowed `createLetterDividers`:
entry 0 is the start position for 'A', entries 1–25 are
`letterIndices[letter] / wordList.length * availableWidth`, and entry 26
is the end position `availableWidth`. -/
def dividerPos (wl : List String) (availableWidth : ℚ) (i : Nat) : ℚ :=
  if i = 0 then 0
  else if i < 26 then
    ((letterIndexOf wl (alphabetChar i) : ℚ) / (wl.length : ℚ)) * availableWidth
  else availableWidth

/-- The `left` offsets of the divider elements created by the windowed
`createLetterDividers`: one divider for every letter B–Z, with no test for
absent letters, each at `dividerPositions[i] + handleWidth / 2`. -/
def renderedDividerLefts (wl : List String) (sliderWidth handleWidth : ℚ) :
    List ℚ :=
  if wl.length = 0 then []
  else
    (List.range 25).map fun k =>
      dividerPos wl (sliderWidth - handleWidth) (k + 1) + handleWidth / 2

/-- The `left` offsets of the divider elements created by the
`word_browser.js` variant of `createLetterDividers`, which skips letters
whose `letterIndices` entry is the sentinel -1. -/
def renderedDividerLeftsSkipAbsent (wl : List String)
    (sliderWidth handleWidth : ℚ) : List ℚ :=
  if wl.length = 0 then []
  else
    (List.range 25).filterMap fun k =>
      let c := alphabetChar (k + 1)
      if letterIndexOf wl c = -1 then none
      else
        some ((letterIndexOf wl c : ℚ) / (wl.length : ℚ) *
                (sliderWidth - handleWidth) + handleWidth / 2)

/-- Lexicographic order on character lists, executable. -/
def lexLe : List Char → List Char → Bool
  | [], _ => true
  | _ :: _, [] => false
  | a :: as, b :: bs =>
    if a < b then true
    else if a = b then lexLe as bs
    else false

/-- Case-insensitive comparison of two words: lexicographic comparison of
their character sequences mapped to upper case. -/
def ciLe (a b : String) : Bool :=
  lexLe (a.data.map Char.toUpper) (b.data.map Char.toUpper)

/-- A word list is case-insensitively sorted when every earlier word
compares at most equal to every later word under `ciLe`. -/
def SortedCI (wl : List String) : Prop :=
  List.Pairwise (fun a b => ciLe a b = true) wl

instance (wl : List String) : Decidable (SortedCI wl) :=
  inferInstanceAs (Decidable (List.Pairwise _ wl))

/-! ### Position synchronizer and interaction state -/

/-- Mutable interface state beyond the page store: the drag flag, the
slider handle offset (`currentPosition` and the handle's `left` style),
the display area's scroll offset, and the scroll-snap CSS state with its
pending re-enable timer. -/
structure BrowserState where
  store : Store
  isDragging : Bool
  currentPosition : ℚ
  handleLeft : ℚ
  scrollTop : ℚ
  scrollSnapOn : Bool
  snapTimerPending : Bool
  deriving Repr, DecidableEq

/-- The page-index computation of `updateDisplay`: normalize the slider
position by `sliderWidth - handleWidth`, scale by `totalPages`, floor, and
clamp any overflow down to `totalPages - 1`. -/
def updateDisplayPageIndex (cfg : Config) (position : ℚ) : ℤ :=
  let totalPages := totalPagesOf cfg
  let normalizedPosition := position / (cfg.sliderWidth - cfg.handleWidth)
  let p := ⌊normalizedPosition * (totalPages : ℚ)⌋
  if (totalPages : ℤ) ≤ p then (totalPages : ℤ) - 1 else p

/-- The divisor used by `syncSliderWithScroll` when normalizing a page
index: `totalPages === 1 ? 1 : totalPages - 1`. -/
def syncDivisor (totalPages : Nat) : ℚ :=
  if totalPages = 1 then 1 else (totalPages : ℚ) - 1

/-- `normalizedPosition` of `syncSliderWithScroll`: the page index divided
by the guarded divisor. -/
def normalizedPositionForPage (pageIndex : ℤ) (totalPages : Nat) : ℚ :=
  (pageIndex : ℚ) / syncDivisor totalPages

/-- The pixel offset `syncSliderWithScroll` derives for a page index. -/
def sliderPositionForPage (cfg : Config) (pageIndex : ℤ) : ℚ :=
  normalizedPositionForPage pageIndex (totalPagesOf cfg) *
    (cfg.sliderWidth - cfg.handleWidth)

/-- The clamping of `setSliderPosition`:
`Math.max(0, Math.min(sliderWidth - handleWidth, x))`. -/
def clampedSliderPosition (cfg : Config) (x : ℚ) : ℚ :=
  max 0 (min (cfg.sliderWidth - cfg.handleWidth) x)

/-- Pixel offset of the top of child `k` in the display area: the summed
heights of the preceding page containers. -/
def pageTop (pages : List Page) (k : Nat) : ℚ :=
  ((pages.take k).map fun p => (p.height : ℚ)).sum

/-- `updateDisplay(position)`: re-enables scroll snap and cancels the
pending snap timer, maps the position to a page index, updates the
visibility window, and scrolls the target page (when it exists) to the
top of the viewport.  The transient letter overlays drawn while dragging
carry no further state and are not modelled. -/
def updateDisplay (cfg : Config) (s : BrowserState) (position : ℚ) :
    BrowserState :=
  let s0 := { s with scrollSnapOn := true, snapTimerPending := false }
  let pageIndex := updateDisplayPageIndex cfg position
  let store1 := updateVisiblePages cfg s0.store pageIndex false
  let s1 := { s0 with store := store1 }
  match (if 0 ≤ pageIndex then store1.pages.get? pageIndex.toNat else none) with
  | some _ => { s1 with scrollTop := pageTop store1.pages pageIndex.toNat }
  | none => s1

/-- `setSliderPosition(x, updateWords)`: clamps the offset, moves the
handle, records `currentPosition`, and updates the display only when
`updateWords` is set. -/
def setSliderPosition (cfg : Config) (s : BrowserState) (x : ℚ)
    (updateWords : Bool) : BrowserState :=
  let newPosition := clampedSliderPosition cfg x
  let s1 := { s with handleLeft := newPosition, currentPosition := newPosition }
  if updateWords then updateDisplay cfg s1 newPosition else s1

/-- The page index `syncSliderWithScroll` reads off the scroll offset:
the page containing the vertical midpoint of the display area, measured
with the first child's `offsetHeight`. -/
def syncIndex (cfg : Config) (s : BrowserState) : ℤ :=
  match s.store.pages with
  | [] => 0
  | page0 :: _ =>
    ⌊(s.scrollTop + cfg.displayHeight / 2) / (page0.height : ℚ)⌋

/-- `syncSliderWithScroll`: bails out on an empty display area, updates
the visibility window for the midpoint page when its index is valid, and
then, only when the user is not dragging, silently moves the slider
(`setSliderPosition` with `updateWords = false`). -/
def syncSliderWithScroll (cfg : Config) (s : BrowserState) : BrowserState :=
  if s.store.pages.isEmpty then s
  else
    let pageIndex := syncIndex cfg s
    if 0 ≤ pageIndex ∧ pageIndex < (s.store.pages.length : ℤ) then
      let s1 := { s with store := updateVisiblePages cfg s.store pageIndex false }
      if s.isDragging then s1
      else
        let newPosition :=
          normalizedPositionForPage pageIndex (totalPagesOf cfg) *
            (cfg.sliderWidth - cfg.handleWidth)
        setSliderPosition cfg s1 newPosition false
    else s

/-! ### Concrete fixtures -/

/-- A sorted 26-word list containing one word per letter. -/
def wordsAtoZ : List String :=
  ["ant", "bee", "cat", "dog", "elk", "fox", "gnu", "hen", "ibis", "jay",
   "koi", "lark", "mole", "newt", "owl", "pig", "quail", "rat", "seal",
   "toad", "urchin", "vole", "wasp", "xerus", "yak", "zebu"]

/-- The page attributes C10 is about: the CSS height and the
`data-page-index` attribute. -/
def pageMeasure (p : Page) : Nat × Nat := (p.height, p.pageIndex)

/-- A small session: three words, two rows per column. -/
def cfgSmall : Config :=
  { wordList := ["a", "b", "c"]
    rowsPerColumn := 2
    wordsPerPage := 6
    sliderWidth := 12
    handleWidth := 2
    displayHeight := 100 }

/-- An already-populated page container. -/
def pagePopulatedFixture : Page :=
  { pageIndex := 0, height := 350, children := [["x"]] }

/-- A state in which the user is dragging the slider while a scroll
synchronization step fires. -/
def stateDraggingFixture : BrowserState :=
  { store := { pages := [createEmptyPage 0, createEmptyPage 1], cur := 0 }
    isDragging := true
    currentPosition := 3
    handleLeft := 3
    scrollTop := 0
    scrollSnapOn := true
    snapTimerPending := false }

/-- A larger session (60 words, 20 pages) showing that stale populated
pages accumulate across repeated slider jumps. -/
def cfg60 : Config :=
  { wordList := List.replicate 60 "w"
    rowsPerColumn := 1
    wordsPerPage := 3
    sliderWidth := 12
    handleWidth := 2
    displayHeight := 100 }

/-- C1: the claimed virtualization bound fails on the code.  After
`loadAllPages` (pages 0 and 1 populated) a single jump of the visible
index to page 10 examines only pages 8–12, so the stale pages 0 and 1 are
never cleared: five pages are populated, exceeding the claimed bound of
three.  A second jump to page 16 (in the 20-page session) leaves eight
populated pages, so the live-item count grows without bound. -/
theorem c1_virtualization_bound_violated :
    populatedCount (updateVisiblePages cfg36 (loadAllPages cfg36) 10 false) = 5 ∧
    3 < populatedCount (updateVisiblePages cfg36 (loadAllPages cfg36) 10 false) ∧
    populatedCount
      (updateVisiblePages cfg60
        (updateVisiblePages cfg60 (loadAllPages cfg60) 8 false) 16 false) = 8 := by
  refine ⟨by decide, by decide, by decide⟩

/-- C2: `calculateRows` applies no safe minimum.  With a 10px-high display
area and 24px word items it returns -1, so `wordsPerPage` becomes -3 and
page start indices go negative; with a 30px display area it returns 0, so
`wordsPerPage` is 0 and `totalPages = Math.ceil(length / 0)` divides by
zero. -/
theorem c2_calculateRows_no_safe_minimum :
    calculateRows 10 24 = -1 ∧ calculateRows 10 24 * 3 < 0 ∧
    calculateRows 30 24 = 0 := by
  refine ⟨by decide, by decide, by decide⟩

/-- C3: the windowed `createLetterDividers` does not skip absent letters.
For the list `["apple", "cherry"]` (no word starts with 'B') the scan
records the sentinel -1 for 'B', yet a divider is still rendered for every
letter B–Z: 25 dividers, the first of which (the 'B' divider) sits at the
negative offset `(-1)/2 * 10 + 2/2 = -4`.  The `word_browser.js` variant
skips absent letters and renders exactly one divider here. -/
theorem c3_absent_letter_divider_rendered :
    letterIndexOf ["apple", "cherry"] (alphabetChar 1) = -1 ∧
    (renderedDividerLefts ["apple", "cherry"] 12 2).length = 25 ∧
    (renderedDividerLefts ["apple", "cherry"] 12 2).get? 0 = some (-4) ∧
    ((-4 : ℚ) < 0) ∧
    (renderedDividerLeftsSkipAbsent ["apple", "cherry"] 12 2).length = 1 := by
  have h : letterIndexOf ["apple", "cherry"] (alphabetChar 1) = -1 := by decide
  refine ⟨h, by decide, ?_, by norm_num, ?_⟩
  · simp [renderedDividerLefts, dividerPos, h]
    norm_num
  · simp [renderedDividerLeftsSkipAbsent]
    decide

/-- C4, counterexample: the word list `["apple", "cherry"]` is
case-insensitively sorted, yet the computed divider positions are not
monotonically non-decreasing: position 0 (for 'A') is 0, while position 1
(for the absent letter 'B') is `(-1)/2 * 10 = -5`. -/
theorem c4_counterexample :
    SortedCI ["apple", "cherry"] ∧
    ¬ (∀ i, i < 26 →
        dividerPos ["apple", "cherry"] 10 i ≤
          dividerPos ["apple", "cherry"] 10 (i + 1)) := by
  constructor
  · decide
  · intro hmon
    have h01 := hmon 0 (by norm_num)
    have h : letterIndexOf ["apple", "cherry"] (alphabetChar 1) = -1 := by decide
    simp only [dividerPos] at h01
    norm_num [h] at h01

theorem lexLe_cons {a b : Char} {as bs : List Char}
    (h : lexLe (a :: as) (b :: bs) = true) : a < b ∨ a = b := by
  rw [lexLe] at h
  split at h
  · exact Or.inl (by assumption)
  · split at h
    · exact Or.inr (by assumption)
    · exact absurd h (by simp)

theorem firstOcc_spec {wl : List String} {c : Char} {n : Nat}
    (h : firstOcc wl c = some n) :
    ∃ w, wl.get? n = some w ∧ firstCharUpper w = some c := by
  induction wl generalizing n with
  | nil => simp [firstOcc] at h
  | cons w ws ih =>
    rw [firstOcc] at h
    split at h
    · obtain rfl : (0 : Nat) = n := by simpa using h
      exact ⟨w, by simp, by assumption⟩
    · obtain ⟨m, hm, rfl⟩ := Option.map_eq_some'.mp h
      obtain ⟨w', hw', hc⟩ := ih hm
      exact ⟨w', by simpa using hw', hc⟩

theorem firstOcc_lt_length {wl : List String} {c : Char} {n : Nat}
    (h : firstOcc wl c = some n) : n < wl.length := by
  obtain ⟨w, hw, -⟩ := firstOcc_spec h
  exact List.get?_eq_some.mp hw |>.1

theorem letterIndexOf_eq {wl : List String} {c : Char} {n : Nat}
    (h : firstOcc wl c = some n) : letterIndexOf wl c = (n : ℤ) := by
  simp [letterIndexOf, h]

theorem data_map_upper {w : String} {c : Char} (h : firstCharUpper w = some c) :
    ∃ t, w.data.map Char.toUpper = c :: t := by
  unfold firstCharUpper at h
  cases hd : w.data with
  | nil => rw [hd] at h; simp at h
  | cons z t =>
    rw [hd] at h
    simp only [List.head?_cons, Option.map_some'] at h
    obtain rfl : z.toUpper = c := by simpa using h
    exact ⟨t.map Char.toUpper, by simp⟩

/-- In a case-insensitively sorted list, the first occurrences of two
letters appear in alphabet order. -/
theorem firstOcc_mono {wl : List String} (hs : SortedCI wl) {c₁ c₂ : Char}
    (hc : c₁ < c₂) {a b : Nat}
    (ha : firstOcc wl c₁ = some a) (hb : firstOcc wl c₂ = some b) : a < b := by
  by_contra hab
  push_neg at hab
  obtain ⟨w₁, hw₁, hcw₁⟩ := firstOcc_spec ha
  obtain ⟨w₂, hw₂, hcw₂⟩ := firstOcc_spec hb
  rcases Nat.eq_or_lt_of_le hab with heq | hlt
  · rw [heq, hw₁] at hw₂
    obtain rfl : w₁ = w₂ := by simpa using hw₂
    rw [hcw₁] at hcw₂
    exact absurd (by simpa using hcw₂) (ne_of_lt hc)
  · obtain ⟨hblen, hgb⟩ := List.get?_eq_some.mp hw₂
    obtain ⟨halen, hga⟩ := List.get?_eq_some.mp hw₁
    have hR := (List.pairwise_iff_get.mp hs) ⟨b, hblen⟩ ⟨a, halen⟩ hlt
    rw [hgb, hga] at hR
    obtain ⟨t₂, ht₂⟩ := data_map_upper hcw₂
    obtain ⟨t₁, ht₁⟩ := data_map_upper hcw₁
    rw [ciLe, ht₂, ht₁] at hR
    rcases lexLe_cons hR with hlt2 | heq2
    · exact absurd hlt2 (lt_asymm hc)
    · exact absurd heq2 (ne_of_lt hc).symm

theorem alphabetChar_mono : ∀ k, k < 25 → alphabetChar k < alphabetChar (k + 1) := by
  decide

/-- C4, amended: for every case-insensitively sorted word list in which
every letter A–Z occurs as a first letter, and every non-negative
available track width, the `dividerPositions` array computed by the
windowed `createLetterDividers` is monotonically non-decreasing from the
boundary entry 0 (for 'A') up to the boundary entry `availableWidth` at
index 26. -/
theorem c4_divider_monotone_amended (wl : List String) (W : ℚ)
    (hs : SortedCI wl)
    (hall : ∀ k, k < 26 → firstOcc wl (alphabetChar k) ≠ none)
    (hW : 0 ≤ W) :
    ∀ i, i < 26 → dividerPos wl W i ≤ dividerPos wl W (i + 1) := by
  have hlen : 0 < wl.length := by
    obtain ⟨a1, ha1⟩ := Option.ne_none_iff_exists'.mp (hall 1 (by norm_num))
    exact Nat.lt_of_le_of_lt (Nat.zero_le a1) (firstOcc_lt_length ha1)
  have hlenQ : (0 : ℚ) < (wl.length : ℚ) := by exact_mod_cast hlen
  intro i hi
  rcases Nat.eq_zero_or_pos i with rfl | hipos
  · obtain ⟨a1, ha1⟩ := Option.ne_none_iff_exists'.mp (hall 1 (by norm_num))
    have e1 : dividerPos wl W 0 = 0 := by rw [dividerPos, if_pos rfl]
    have e2 : dividerPos wl W 1 = ((a1 : ℚ) / (wl.length : ℚ)) * W := by
      rw [dividerPos, if_neg (by norm_num), if_pos (by norm_num),
        letterIndexOf_eq ha1]
      norm_num
    rw [e1, e2]
    positivity
  · rcases (show i = 25 ∨ i < 25 by omega) with rfl | hi25
    · obtain ⟨a, ha⟩ := Option.ne_none_iff_exists'.mp (hall 25 (by norm_num))
      have e1 : dividerPos wl W 25 = ((a : ℚ) / (wl.length : ℚ)) * W := by
        rw [dividerPos, if_neg (by norm_num), if_pos (by norm_num),
          letterIndexOf_eq ha]
        norm_num
      have e2 : dividerPos wl W 26 = W := by
        rw [dividerPos, if_neg (by norm_num), if_neg (by norm_num)]
      rw [e1, e2]
      have hdiv : (a : ℚ) / (wl.length : ℚ) ≤ 1 := by
        rw [div_le_one hlenQ]
        exact_mod_cast (firstOcc_lt_length ha).le
      exact mul_le_of_le_one_left hW hdiv
    · obtain ⟨a, ha⟩ := Option.ne_none_iff_exists'.mp (hall i (by omega))
      obtain ⟨b, hb⟩ := Option.ne_none_iff_exists'.mp (hall (i + 1) (by omega))
      have hab : a < b := firstOcc_mono hs (alphabetChar_mono i hi25) ha hb
      have e1 : dividerPos wl W i = ((a : ℚ) / (wl.length : ℚ)) * W := by
        rw [dividerPos, if_neg (by omega), if_pos (by omega), letterIndexOf_eq ha]
        norm_num
      have e2 : dividerPos wl W (i + 1) = ((b : ℚ) / (wl.length : ℚ)) * W := by
        rw [dividerPos, if_neg (by omega), if_pos (by omega), letterIndexOf_eq hb]
        norm_num
      rw [e1, e2]
      have hq : (a : ℚ) / (wl.length : ℚ) ≤ (b : ℚ) / (wl.length : ℚ) := by
        have : (a : ℚ) ≤ (b : ℚ) := by exact_mod_cast hab.le
        gcongr
      exact mul_le_mul_of_nonneg_right hq hW

/-- Witness for the amended C4 on the concrete sorted list with all 26
letters present. -/
theorem c4_divider_monotone_amended_witness :
    dividerPos wordsAtoZ 10 3 ≤ dividerPos wordsAtoZ 10 4 :=
  c4_divider_monotone_amended wordsAtoZ 10 (by decide) (by decide)
    (by norm_num) 3 (by norm_num)

theorem updateDisplayPageIndex_bounds (cfg : Config) (x : ℚ)
    (hn : 1 ≤ totalPagesOf cfg)
    (hT : 0 < cfg.sliderWidth - cfg.handleWidth)
    (hx0 : 0 ≤ x) (hx1 : x ≤ cfg.sliderWidth - cfg.handleWidth) :
    0 ≤ updateDisplayPageIndex cfg x ∧
      updateDisplayPageIndex cfg x ≤ (totalPagesOf cfg : ℤ) - 1 := by
  set n := totalPagesOf cfg with hn_def
  set T := cfg.sliderWidth - cfg.handleWidth with hT_def
  have hy0 : (0 : ℚ) ≤ x / T * (n : ℚ) :=
    mul_nonneg (div_nonneg hx0 hT.le) (by positivity)
  have hy1 : x / T * (n : ℚ) ≤ (n : ℚ) := by
    have h1 : x / T ≤ 1 := (div_le_one hT).mpr hx1
    calc x / T * (n : ℚ) ≤ 1 * (n : ℚ) :=
          mul_le_mul_of_nonneg_right h1 (by positivity)
      _ = (n : ℚ) := one_mul _
  have hf0 : (0 : ℤ) ≤ ⌊x / T * (n : ℚ)⌋ := Int.le_floor.mpr (by exact_mod_cast hy0)
  have hfn : ⌊x / T * (n : ℚ)⌋ ≤ (n : ℤ) := by
    calc ⌊x / T * (n : ℚ)⌋ ≤ ⌊((n : ℤ) : ℚ)⌋ :=
          Int.floor_le_floor (by exact_mod_cast hy1)
      _ = (n : ℤ) := Int.floor_intCast _
  rw [updateDisplayPageIndex]
  split
  · omega
  · exact ⟨hf0, by omega⟩

/-- Re-deriving a slider offset from an in-range page index and mapping it
back through `updateDisplay` recovers the page index exactly. -/
theorem c5_reindex (cfg : Config) (p : ℤ)
    (hn : 1 ≤ totalPagesOf cfg)
    (hT : 0 < cfg.sliderWidth - cfg.handleWidth)
    (hp0 : 0 ≤ p) (hp1 : p ≤ (totalPagesOf cfg : ℤ) - 1) :
    updateDisplayPageIndex cfg (sliderPositionForPage cfg p) = p := by
  have hTne : cfg.sliderWidth - cfg.handleWidth ≠ 0 := ne_of_gt hT
  have hxT : sliderPositionForPage cfg p / (cfg.sliderWidth - cfg.handleWidth) =
      (p : ℚ) / syncDivisor (totalPagesOf cfg) := by
    rw [sliderPositionForPage, normalizedPositionForPage]
    exact mul_div_cancel_right₀ _ hTne
  simp only [updateDisplayPageIndex, hxT]
  rcases Nat.lt_or_ge (totalPagesOf cfg) 2 with h1 | h2
  · have hn1 : totalPagesOf cfg = 1 := by omega
    have hpz : p = 0 := by omega
    rw [hn1, hpz]
    norm_num [syncDivisor]
  · have hdiv : syncDivisor (totalPagesOf cfg) = (totalPagesOf cfg : ℚ) - 1 := by
      rw [syncDivisor, if_neg (by omega)]
    have hnQ : (2 : ℚ) ≤ (totalPagesOf cfg : ℚ) := by exact_mod_cast h2
    have hdpos : (0 : ℚ) < (totalPagesOf cfg : ℚ) - 1 := by linarith
    have hdne : ((totalPagesOf cfg : ℚ) - 1) ≠ 0 := ne_of_gt hdpos
    rw [hdiv]
    rcases eq_or_lt_of_le hp1 with htop | hmid
    · have hpq : (p : ℚ) = (totalPagesOf cfg : ℚ) - 1 := by
        exact_mod_cast htop
      have hyn : (p : ℚ) / ((totalPagesOf cfg : ℚ) - 1) * (totalPagesOf cfg : ℚ) =
          (totalPagesOf cfg : ℚ) := by
        rw [hpq, div_mul_eq_mul_div, mul_comm, mul_div_assoc, div_self hdne,
          mul_one]
      rw [hyn, show ⌊((totalPagesOf cfg : ℕ) : ℚ)⌋ = ((totalPagesOf cfg : ℕ) : ℤ) from
        Int.floor_natCast _]
      rw [if_pos le_rfl]
      omega
    · have hpltQ : (p : ℚ) < (totalPagesOf cfg : ℚ) - 1 := by
        have hz : p < (totalPagesOf cfg : ℤ) - 1 := hmid
        exact_mod_cast hz
      have hp0Q : (0 : ℚ) ≤ (p : ℚ) := by exact_mod_cast hp0
      have hy_split : (p : ℚ) / ((totalPagesOf cfg : ℚ) - 1) * (totalPagesOf cfg : ℚ) =
          (p : ℚ) + (p : ℚ) / ((totalPagesOf cfg : ℚ) - 1) := by
        field_simp
        ring
      have hr0 : (0 : ℚ) ≤ (p : ℚ) / ((totalPagesOf cfg : ℚ) - 1) :=
        div_nonneg hp0Q hdpos.le
      have hr1 : (p : ℚ) / ((totalPagesOf cfg : ℚ) - 1) < 1 := by
        rw [div_lt_one hdpos]; linarith
      have hfloor : ⌊(p : ℚ) / ((totalPagesOf cfg : ℚ) - 1) * (totalPagesOf cfg : ℚ)⌋ = p := by
        rw [hy_split, Int.floor_eq_iff]
        constructor
        · linarith
        · linarith
      rw [hfloor, if_neg (by omega)]

/-- C5: for every session with at least one page, positive usable track
width and slider offset `x` within `[0, sliderWidth - handleWidth]`, the
round trip offset → page index → offset → page index changes the page
index by at most one (in fact it recovers it exactly). -/
theorem c5_slider_round_trip (cfg : Config) (x : ℚ)
    (hn : 1 ≤ totalPagesOf cfg)
    (hT : 0 < cfg.sliderWidth - cfg.handleWidth)
    (hx0 : 0 ≤ x) (hx1 : x ≤ cfg.sliderWidth - cfg.handleWidth) :
    (updateDisplayPageIndex cfg
        (sliderPositionForPage cfg (updateDisplayPageIndex cfg x)) -
      updateDisplayPageIndex cfg x).natAbs ≤ 1 := by
  obtain ⟨hp0, hp1⟩ := updateDisplayPageIndex_bounds cfg x hn hT hx0 hx1
  rw [c5_reindex cfg _ hn hT hp0 hp1]
  simp

/-- Witness for C5 at the 12-page session and offset 4. -/
theorem c5_slider_round_trip_witness :
    (updateDisplayPageIndex cfg36
        (sliderPositionForPage cfg36 (updateDisplayPageIndex cfg36 4)) -
      updateDisplayPageIndex cfg36 4).natAbs ≤ 1 :=
  c5_slider_round_trip cfg36 4 (by decide) (by norm_num [cfg36])
    (by norm_num) (by norm_num [cfg36])

/-- C6: with a single page, the divisor `syncSliderWithScroll` uses to
normalize the page index is 1 rather than `totalPages - 1 = 0`, and the
normalized position of the only reachable page index is 0. -/
theorem c6_single_page_no_div_by_zero (pageIndex : ℤ)
    (h0 : 0 ≤ pageIndex) (h1 : pageIndex < 1) :
    syncDivisor 1 ≠ 0 ∧ normalizedPositionForPage pageIndex 1 = 0 := by
  have hpz : pageIndex = 0 := by omega
  refine ⟨by norm_num [syncDivisor], ?_⟩
  rw [hpz, normalizedPositionForPage]
  norm_num

/-- Witness for C6 at page index 0. -/
theorem c6_single_page_no_div_by_zero_witness :
    syncDivisor 1 ≠ 0 ∧ normalizedPositionForPage 0 1 = 0 :=
  c6_single_page_no_div_by_zero 0 le_rfl (by norm_num)

/-- C7: populating an already-populated page is a no-op, and for a fixed
word list and layout, populate–clear–populate reproduces exactly the
content of the first populate. -/
theorem c7_populate_idempotent_round_trip (cfg : Config) (p : Nat)
    (hp : p < totalPagesOf cfg) :
    (∀ page : Page, page.children ≠ [] → populatePage cfg page p = page) ∧
    populatePage cfg (clearPage (populatePage cfg (createEmptyPage p) p)) p =
      populatePage cfg (createEmptyPage p) p := by
  constructor
  · intro page hne
    rw [populatePage, if_pos (by simpa [List.length_pos] using hne)]
  · simp [populatePage, clearPage, createEmptyPage]

/-- Witness for C7 on the three-word session at page 0. -/
theorem c7_populate_idempotent_round_trip_witness :
    0 < totalPagesOf cfgSmall ∧
    populatePage cfgSmall pagePopulatedFixture 0 = pagePopulatedFixture ∧
    populatePage cfgSmall
        (clearPage (populatePage cfgSmall (createEmptyPage 0) 0)) 0 =
      populatePage cfgSmall (createEmptyPage 0) 0 := by
  have h := c7_populate_idempotent_round_trip cfgSmall 0 (by decide)
  exact ⟨by decide, h.1 pagePopulatedFixture (by decide), h.2⟩

theorem range_filterMap_guard {α : Type} (g : Nat → α) (n : Nat) :
    ∀ (rows start : Nat),
      (List.range rows).filterMap
          (fun i => if start + i < n then some (g (start + i)) else none)
        = (List.range (min rows (n - start))).map (fun i => g (start + i)) := by
  intro rows
  induction rows with
  | zero => intro start; simp
  | succ rows ih =>
    intro start
    rw [List.range_succ, List.filterMap_append, ih]
    by_cases h : start + rows < n
    · have h1 : min (rows + 1) (n - start) = rows + 1 := by omega
      have h2 : min rows (n - start) = rows := by omega
      rw [h1, h2, List.range_succ, List.map_append]
      simp [h]
    · have h1 : min (rows + 1) (n - start) = min rows (n - start) := by omega
      rw [h1]
      simp [h]

/-- Row `r` of a column built by `populatePage`. -/
theorem buildColumn_get? (cfg : Config) (startIndex colIndex r : Nat)
    (hr : r < cfg.rowsPerColumn) :
    (buildColumn cfg startIndex colIndex).get? r =
      if startIndex + colIndex * cfg.rowsPerColumn + r < cfg.wordList.length
      then some (cfg.wordList.getD
        (startIndex + colIndex * cfg.rowsPerColumn + r) "")
      else none := by
  rw [buildColumn]
  have hrw : (fun i => if startIndex + colIndex * cfg.rowsPerColumn + i <
      cfg.wordList.length then some (cfg.wordList.getD
        (startIndex + colIndex * cfg.rowsPerColumn + i) "") else none) =
      (fun i => if (startIndex + colIndex * cfg.rowsPerColumn) + i <
      cfg.wordList.length then some ((fun j => cfg.wordList.getD j "")
        ((startIndex + colIndex * cfg.rowsPerColumn) + i)) else none) := rfl
  rw [hrw, range_filterMap_guard (fun j => cfg.wordList.getD j "")
    cfg.wordList.length cfg.rowsPerColumn
    (startIndex + colIndex * cfg.rowsPerColumn)]
  by_cases h : startIndex + colIndex * cfg.rowsPerColumn + r < cfg.wordList.length
  · have hrm : r < min cfg.rowsPerColumn
        (cfg.wordList.length - (startIndex + colIndex * cfg.rowsPerColumn)) := by
      omega
    rw [List.get?_map, List.get?_range hrm, if_pos h]
    rfl
  · rw [List.get?_map, List.get?_eq_none.mpr (by simp; omega), if_neg h]
    rfl

/-- C9: the word rendered at column `c`, row `r` of page `p` is
`wordList[p * wordsPerPage + c * rowsPerColumn + r]` (column-major
filling), and any position whose index falls past the end of the word
list is simply left empty, so `populatePage` never reads out of bounds. -/
theorem c9_populate_column_major (cfg : Config) (p c r : Nat) (hc : c < 3)
    (hr : r < cfg.rowsPerColumn) :
    ((populatePage cfg (createEmptyPage p) p).children.getD c []).get? r =
      if p * cfg.wordsPerPage + c * cfg.rowsPerColumn + r < cfg.wordList.length
      then some (cfg.wordList.getD
        (p * cfg.wordsPerPage + c * cfg.rowsPerColumn + r) "")
      else none := by
  have hch : (populatePage cfg (createEmptyPage p) p).children =
      (List.range 3).map (buildColumn cfg (p * cfg.wordsPerPage)) := by
    simp [populatePage, createEmptyPage]
  have hcol : ((List.range 3).map
      (buildColumn cfg (p * cfg.wordsPerPage))).getD c [] =
      buildColumn cfg (p * cfg.wordsPerPage) c := by
    interval_cases c <;> rfl
  rw [hch, hcol, buildColumn_get? cfg _ _ _ hr]

/-- Witness for C9: with three words and two rows per column, column 1,
row 0 of page 0 renders word index 2. -/
theorem c9_populate_column_major_witness :
    ((populatePage cfgSmall (createEmptyPage 0) 0).children.getD 1 []).get? 0 =
      some "c" :=
  (c9_populate_column_major cfgSmall 0 1 0 (by norm_num) (by decide)).trans
    (by decide)

theorem set_get?_self {α : Type} : ∀ (l : List α) (n : Nat) (a : α),
    l.get? n = some a → l.set n a = l := by
  intro l
  induction l with
  | nil => intro n a h; simp at h
  | cons x xs ih =>
    intro n a h
    cases n with
    | zero =>
      obtain rfl : x = a := by simpa using h
      simp
    | succ n =>
      simp only [List.get?_cons_succ] at h
      simp [List.set, ih n a h]

theorem populatePage_measure (cfg : Config) (page : Page) (k : Nat) :
    pageMeasure (populatePage cfg page k) = pageMeasure page := by
  rw [populatePage]
  split <;> rfl

theorem clearPage_measure (page : Page) :
    pageMeasure (clearPage page) = pageMeasure page := rfl

theorem visiblePageStep_measure (cfg : Config) (newIndex : ℤ)
    (pages : List Page) (i : ℤ) :
    (visiblePageStep cfg newIndex pages i).map pageMeasure =
      pages.map pageMeasure := by
  rw [visiblePageStep]
  split
  · rfl
  · split
    · rfl
    · rename_i page heq
      have hgm : (pages.map pageMeasure).get? i.toNat =
          some (pageMeasure page) := by
        rw [List.get?_map, heq]; rfl
      dsimp only
      split
      · rw [List.map_set, populatePage_measure, set_get?_self _ _ _ hgm]
      · split
        · rw [List.map_set, clearPage_measure, set_get?_self _ _ _ hgm]
        · rfl

theorem foldl_visiblePageStep_measure (cfg : Config) (newIndex : ℤ) :
    ∀ (is : List ℤ) (pages : List Page),
      ((is.foldl (visiblePageStep cfg newIndex) pages).map pageMeasure) =
        pages.map pageMeasure := by
  intro is
  induction is with
  | nil => intro pages; rfl
  | cons i is ih =>
    intro pages
    rw [List.foldl_cons, ih, visiblePageStep_measure]

/-- C10: every placeholder is created with height exactly 350px
(independent of any layout measurement, which `createEmptyPage` never
reads), and `populatePage`, `clearPage` and `updateVisiblePages` preserve
the height and the stored page index of every page. -/
theorem c10_placeholder_height_frame (cfg : Config) (i : Nat) (page : Page)
    (p : Nat) (s : Store) (newIndex : ℤ) (force : Bool) :
    (createEmptyPage i).height = 350 ∧
    (populatePage cfg page p).height = page.height ∧
    (populatePage cfg page p).pageIndex = page.pageIndex ∧
    (clearPage page).height = page.height ∧
    (clearPage page).pageIndex = page.pageIndex ∧
    (updateVisiblePages cfg s newIndex force).pages.map pageMeasure =
      s.pages.map pageMeasure := by
  refine ⟨rfl, ?_, ?_, rfl, rfl, ?_⟩
  · have h := populatePage_measure cfg page p
    exact (by simpa [pageMeasure, Prod.ext_iff] using h :
      (populatePage cfg page p).height = page.height ∧
        (populatePage cfg page p).pageIndex = page.pageIndex).1
  · have h := populatePage_measure cfg page p
    exact (by simpa [pageMeasure, Prod.ext_iff] using h :
      (populatePage cfg page p).height = page.height ∧
        (populatePage cfg page p).pageIndex = page.pageIndex).2
  · rw [updateVisiblePages]
    split
    · rfl
    · exact foldl_visiblePageStep_measure cfg newIndex _ s.pages

/-- C8: a scroll-driven synchronization step always leaves the scroll
offset and scroll-snap state alone (it writes the slider only through the
silent `setSliderPosition(_, false)` path, never `updateDisplay`), always
updates the page-store window for the midpoint page, leaves
`currentPosition` and the handle untouched while the drag flag is set,
and writes the clamped derived offset only when the flag is clear. -/
theorem c8_sync_respects_drag (cfg : Config) (s : BrowserState)
    (hne : s.store.pages ≠ [])
    (h0 : 0 ≤ syncIndex cfg s)
    (h1 : syncIndex cfg s < (s.store.pages.length : ℤ)) :
    (s.isDragging = true →
        (syncSliderWithScroll cfg s).currentPosition = s.currentPosition ∧
        (syncSliderWithScroll cfg s).handleLeft = s.handleLeft) ∧
    (syncSliderWithScroll cfg s).store =
      updateVisiblePages cfg s.store (syncIndex cfg s) false ∧
    (syncSliderWithScroll cfg s).scrollTop = s.scrollTop ∧
    (syncSliderWithScroll cfg s).scrollSnapOn = s.scrollSnapOn ∧
    (s.isDragging = false →
        (syncSliderWithScroll cfg s).currentPosition =
          clampedSliderPosition cfg
            (normalizedPositionForPage (syncIndex cfg s) (totalPagesOf cfg) *
              (cfg.sliderWidth - cfg.handleWidth))) := by
  have hrun : syncSliderWithScroll cfg s =
      (if s.isDragging then
        { s with store := updateVisiblePages cfg s.store (syncIndex cfg s) false }
      else
        setSliderPosition cfg
          { s with store := updateVisiblePages cfg s.store (syncIndex cfg s) false }
          (normalizedPositionForPage (syncIndex cfg s) (totalPagesOf cfg) *
            (cfg.sliderWidth - cfg.handleWidth)) false) := by
    rw [syncSliderWithScroll, if_neg (by simpa [List.isEmpty_iff] using hne)]
    dsimp only
    rw [if_pos ⟨h0, h1⟩]
  cases hd : s.isDragging with
  | true =>
    rw [hrun, hd]
    simp
  | false =>
    rw [hrun, hd]
    simp [setSliderPosition, clampedSliderPosition]

theorem syncIndex_fixture : syncIndex cfg36 stateDraggingFixture = 0 := by
  rw [syncIndex]
  norm_num [stateDraggingFixture, cfg36, createEmptyPage]

/-- Witness for C8: a sync step firing mid-drag leaves the slider offset
and scroll state untouched while still updating the page store. -/
theorem c8_sync_respects_drag_witness :
    (syncSliderWithScroll cfg36 stateDraggingFixture).currentPosition =
        stateDraggingFixture.currentPosition ∧
    (syncSliderWithScroll cfg36 stateDraggingFixture).handleLeft =
        stateDraggingFixture.handleLeft ∧
    (syncSliderWithScroll cfg36 stateDraggingFixture).store =
      updateVisiblePages cfg36 stateDraggingFixture.store
        (syncIndex cfg36 stateDraggingFixture) false ∧
    (syncSliderWithScroll cfg36 stateDraggingFixture).scrollTop =
        stateDraggingFixture.scrollTop := by
  have h := c8_sync_respects_drag cfg36 stateDraggingFixture (by decide)
    (by rw [syncIndex_fixture]) (by rw [syncIndex_fixture]; decide)
  exact ⟨(h.1 rfl).1, (h.1 rfl).2, h.2.1, h.2.2.1⟩

end Lexifree
